import Mathlib

/-!
Verification development for the Ozon listing-localization tool.

The embedding below translates, function by function, the TypeScript source:
`src/types.ts` (data model), the two App components (input parser, batch
scheduler `handleProcess`, CSV export `downloadCSV`), the Gemini adapter
`src/services/geminiService.ts` (`generateWithRetry`, `processProductsBatch`)
and the DeepSeek adapter (`makeRequest`, `processProductsWithDeepSeek`).
Network calls are abstracted as oracles mapping the attempt number to the
outcome of that attempt; JavaScript strings are Lean `String`s, and the
JS-specific operations used by the source (`trim`, `split`, truthiness of
strings, `||` defaulting) are modelled explicitly on `List Char`.
-/

/-- Data model from `src/types.ts`: one line of validated input. -/
structure ProductInput where
  sku : String
  chineseName : String
deriving DecidableEq, Repr

/-- Data model from `src/types.ts`: one localized listing produced by an adapter. -/
structure ProductResult where
  sku : String
  chineseName : String
  russianName : String
  russianDescription : String
  backTranslation : String
deriving DecidableEq, Repr

/-- Data model from `src/types.ts`: the scheduler's progress record
(`error?: string` becomes `Option String`). -/
structure ProcessingStatus where
  total : Nat
  completed : Nat
  isProcessing : Bool
  error : Option String
deriving DecidableEq, Repr

/-- The `ApiProvider` union type of the two-engine App variant. -/
inductive ApiProvider where
  | gemini
  | deepseek
deriving DecidableEq, Repr

/-- The characters stripped by JavaScript `String.prototype.trim` that can occur
in this tool's inputs. -/
def isJsWhitespace (c : Char) : Bool :=
  c == ' ' || c == '\t' || c == '\n' || c == '\r'

/-- Model of JS `.trim()` on a character list: drop whitespace from both ends. -/
def jsTrim (cs : List Char) : List Char :=
  ((cs.dropWhile isJsWhitespace).reverse.dropWhile isJsWhitespace).reverse

/-- Model of JS `.trim()` on strings. -/
def jsTrimStr (s : String) : String :=
  ⟨jsTrim s.data⟩

/-- Model of JS `text.split('\n')`: cut the character stream at every newline,
keeping empty segments. `cur` accumulates the current segment. -/
def splitNewlines : List Char → List Char → List (List Char)
  | [], cur => [cur]
  | '\n' :: rest, cur => cur :: splitNewlines rest []
  | c :: rest, cur => splitNewlines rest (cur ++ [c])

/-- Model of JS `line.split(/\t| {2,}/)`: a tab, or a maximal run of two or more
spaces, separates fields. `cur` is the current field; `pending` counts spaces
seen but not yet classified as separator or content (a lone space is content,
a run of two or more is a separator, exactly as the greedy regex matches). -/
def splitFields : List Char → List Char → Nat → List (List Char)
  | [], cur, pending =>
    if 2 ≤ pending then [cur, []] else [cur ++ List.replicate pending ' ']
  | '\t' :: rest, cur, pending =>
    if 2 ≤ pending then cur :: [] :: splitFields rest [] 0
    else (cur ++ List.replicate pending ' ') :: splitFields rest [] 0
  | ' ' :: rest, cur, pending => splitFields rest cur (pending + 1)
  | c :: rest, cur, pending =>
    if 2 ≤ pending then cur :: splitFields rest [c] 0
    else splitFields rest (cur ++ List.replicate pending ' ' ++ [c]) 0

/-- One line of `parseInput`: `parts[0]?.trim() || ''` and
`parts[1]?.trim() || ''` (a missing part and an all-whitespace part both
yield the empty string). -/
def parseLine (cs : List Char) : ProductInput :=
  let parts := splitFields cs [] 0
  { sku := ⟨jsTrim (parts[0]?.getD [])⟩
    chineseName := ⟨jsTrim (parts[1]?.getD [])⟩ }

/-- `parseInput` from both App components: trim the raw text, split it into
lines, parse each line, and keep only records whose two fields are non-empty
(JS string truthiness). -/
def parseInput (text : String) : List ProductInput :=
  ((splitNewlines (jsTrim text.data) []).map parseLine).filter
    fun p => !p.sku.isEmpty && !p.chineseName.isEmpty

/-- Modelled from the claim's wording for C6, which describes the parser as
splitting the raw text on newlines directly, without the whole-text trim the
source performs first; used to compare the claimed behaviour with `parseInput`. -/
def claimedParseInput (text : String) : List ProductInput :=
  ((splitNewlines text.data []).map parseLine).filter
    fun p => !p.sku.isEmpty && !p.chineseName.isEmpty

/-- An error thrown by the Gemini SDK call as inspected by `generateWithRetry`:
`error.message` and an optional numeric `error.status`. -/
structure GenError where
  message : String
  status : Option Nat
deriving DecidableEq, Repr

/-- `pat.leadsWith s`: does `s` start with `pat`? (helper for JS `includes`). -/
def leadsWith : List Char → List Char → Bool
  | [], _ => true
  | _ :: _, [] => false
  | p :: ps, c :: cs => p == c && leadsWith ps cs

/-- `occursIn pat s`: does `pat` occur as a contiguous run inside `s`?
Models JS `String.prototype.includes`. -/
def occursIn (pat : List Char) : List Char → Bool
  | [] => leadsWith pat []
  | c :: cs => leadsWith pat (c :: cs) || occursIn pat cs

/-- `generateWithRetry`'s rate-limit test:
`error.message?.includes('429') || error.status === 429`. -/
def isRateLimitErr (e : GenError) : Bool :=
  occursIn "429".data e.message.data || e.status == some 429

/-- A response entry parsed from a provider response body
(fields `sku`, `russianName`, `russianDescription`, `backTranslation`). -/
structure ResponseEntry where
  sku : String
  russianName : String
  russianDescription : String
  backTranslation : String
deriving DecidableEq, Repr

/-- The retry loop of `generateWithRetry` (geminiService), instrumented with
the number of attempts performed. `oracle i` is the outcome of attempt `i`
(the `generateContent` call followed by `JSON.parse`); `fuel` counts the loop
iterations still allowed (`maxRetries - attempt`), so the attempt number is
`maxRetries - fuel`; `lastError` models the `lastError` variable, and the
`fuel = 0` case models the final `throw lastError` after the loop. -/
def genRetryAuxI (oracle : Nat → Except GenError (List ResponseEntry))
    (maxRetries : Nat) (lastError : Option GenError) :
    Nat → Except GenError (List ResponseEntry) × Nat
  | 0 => (.error (lastError.getD { message := "undefined", status := none }), 0)
  | fuel + 1 =>
    let attempt := maxRetries - (fuel + 1)
    match oracle attempt with
    | .ok v => (.ok v, 1)
    | .error e =>
      if isRateLimitErr e = true ∧ attempt < maxRetries - 1 then
        let r := genRetryAuxI oracle maxRetries (some e) fuel
        (r.1, r.2 + 1)
      else (.error e, 1)

/-- `generateWithRetry(prompt, maxRetries)` from geminiService: the parsed
result, or the error propagated after the retry loop. -/
def generateWithRetry (oracle : Nat → Except GenError (List ResponseEntry))
    (maxRetries : Nat) : Except GenError (List ResponseEntry) :=
  (genRetryAuxI oracle maxRetries none maxRetries).1

/-- The number of `generateContent` attempts `generateWithRetry` performs. -/
def generateAttempts (oracle : Nat → Except GenError (List ResponseEntry))
    (maxRetries : Nat) : Nat :=
  (genRetryAuxI oracle maxRetries none maxRetries).2

/-- Outcome of one `fetch` attempt inside the DeepSeek `makeRequest`:
a non-ok HTTP response with its status and error message, a thrown failure
from the rest of the `try` block (network error, `data.choices` access or
`JSON.parse`), or a successfully parsed body. -/
inductive DSOutcome (α : Type) where
  | httpErr (status : Nat) (msg : String)
  | parseFail (msg : String)
  | ok (v : α)
deriving DecidableEq, Repr

/-- The DeepSeek `makeRequest(attempt)`, instrumented with the number of
`fetch` attempts performed.  The `throw new Error(...)` for a non-retryable
HTTP error is raised inside the `try`, so it falls into the function's own
`catch (attempt < 2 → flat retry)`; the recursive calls are `return
makeRequest(attempt + 1)` without `await`, so their rejections bypass the
enclosing `catch`. -/
def makeRequestI (oracle : Nat → DSOutcome α) (attempt : Nat) :
    Except String α × Nat :=
  match oracle attempt with
  | .httpErr status msg =>
    if h : status = 429 ∧ attempt < 3 then
      let r := makeRequestI oracle (attempt + 1)
      (r.1, r.2 + 1)
    else if h2 : attempt < 2 then
      let r := makeRequestI oracle (attempt + 1)
      (r.1, r.2 + 1)
    else (.error msg, 1)
  | .parseFail msg =>
    if h : attempt < 2 then
      let r := makeRequestI oracle (attempt + 1)
      (r.1, r.2 + 1)
    else (.error msg, 1)
  | .ok v => (.ok v, 1)
termination_by 4 - attempt
decreasing_by
  all_goals omega

/-- The result of the DeepSeek `makeRequest(attempt)`. -/
def makeRequest (oracle : Nat → DSOutcome α) (attempt : Nat) : Except String α :=
  (makeRequestI oracle attempt).1

/-- The number of `fetch` attempts the DeepSeek `makeRequest(attempt)` performs. -/
def makeRequestAttempts (oracle : Nat → DSOutcome α) (attempt : Nat) : Nat :=
  (makeRequestI oracle attempt).2

/-- JS `x || y` on strings, where an absent value has already been conflated
with the empty string: the fallback is used exactly when `s` is falsy. -/
def jsOrElse (s fallback : String) : String :=
  if s = "" then fallback else s

/-- The reconciliation step shared verbatim by both adapters: look the
response entry's `sku` up in the submitted batch with `products.find(...)` and
build the `ProductResult`, defaulting `chineseName` to the sentinel
`"未知"` via `original?.chineseName || "未知"`. -/
def reconcileEntry (products : List ProductInput) (res : ResponseEntry) :
    ProductResult :=
  let original := products.find? fun p => p.sku == res.sku
  { sku := res.sku
    chineseName := jsOrElse ((original.map fun p => p.chineseName).getD "") "未知"
    russianName := res.russianName
    russianDescription := res.russianDescription
    backTranslation := res.backTranslation }

/-- `processProductsBatch` from geminiService: run `generateWithRetry` with
`maxRetries = 3`, map the entries through the reconciliation step, and wrap
any propagated failure in the fixed user-facing message. -/
def processProductsBatch (products : List ProductInput)
    (oracle : Nat → Except GenError (List ResponseEntry)) :
    Except String (List ProductResult) :=
  match generateWithRetry oracle 3 with
  | .ok results => .ok (results.map (reconcileEntry products))
  | .error _ => .error "API 额度可能不足或连接超时。建议减小单次处理量或稍后再试。"

/-- The JSON value `makeRequest` hands back to `processProductsWithDeepSeek`:
either an array of entries, or any other JSON value carrying an optional
`products` array field (`Array.isArray(rawResults) ? rawResults :
(rawResults.products || [])`; an empty `products` array and an absent one
both yield `[]`). -/
inductive RawResult where
  | arr (items : List ResponseEntry)
  | obj (products : Option (List ResponseEntry))
deriving DecidableEq, Repr

/-- `processProductsWithDeepSeek` from the DeepSeek service: call
`makeRequest(0)`, select the entry list from the raw body, reconcile, and wrap
a propagated failure in the backend-identifying message. -/
def processProductsWithDeepSeek (products : List ProductInput)
    (oracle : Nat → DSOutcome RawResult) : Except String (List ProductResult) :=
  match makeRequest oracle 0 with
  | .ok raw =>
    let results := match raw with
      | .arr items => items
      | .obj ps => ps.getD []
    .ok (results.map (reconcileEntry products))
  | .error e => .error ("DeepSeek 处理失败: " ++ e)

/-- `const batchSize = provider === 'gemini' ? 4 : 5` from the two-engine App. -/
def batchSize : ApiProvider → Nat
  | .gemini => 4
  | .deepseek => 5

/-- The batch slicing performed by `handleProcess`'s
`for (let i = 0; i < inputs.length; i += batchSize)` loop with
`inputs.slice(i, i + batchSize)`.  `fuel` bounds the iteration count by the
list length (each slice removes at least the head), keeping the recursion
structural: `chunks` always calls it with `fuel = l.length`. -/
def chunksAux (K : Nat) : Nat → List α → List (List α)
  | _, [] => []
  | 0, _ :: _ => []
  | fuel + 1, a :: l => (a :: l.take (K - 1)) :: chunksAux K fuel (l.drop (K - 1))

/-- Slice a list into consecutive batches of size `K` (last one possibly
shorter), exactly as the scheduler's loop does. -/
def chunks (l : List α) (K : Nat) : List (List α) :=
  chunksAux K l.length l

/-- The React component state touched by `handleProcess`
(`results`, `status`, `isWaitingForNextBatch`, `showSettings`); the read-only
inputs `rawInput`, `provider` and `deepSeekKey` are passed as arguments. -/
structure AppState where
  results : List ProductResult
  status : ProcessingStatus
  isWaitingForNextBatch : Bool
  showSettings : Bool
deriving DecidableEq, Repr

/-- The error message built in the two-engine App's `catch` block. -/
def wrapErrGemini (m : String) : String :=
  "处理中断: " ++ m ++ "。建议导出已完成的部分并检查网络/API Key。"

/-- The error message built in the DeepSeek-only App's `catch` block. -/
def wrapErrDS (m : String) : String :=
  "处理中断: " ++ m ++ "。请检查 API Key 余额或网络连接。"

/-- The body of `handleProcess`'s `try { for ... } catch` over one batch list:
`call b` is the adapter call on batch `b` (an `Except` models the awaited
promise).  On success the batch's records are appended and `completed` is
advanced by `Math.min(prev.completed + batch.length, prev.total)`; on failure
the wrapped message is recorded in `status.error` and the loop aborts.  The
returned list is the sequence of states after each attempted batch (the
pre-batch `isWaitingForNextBatch` toggle nets to `false` before every call and
is reset by the `finally`, so it is left untouched here). -/
def processBatches (wrap : String → String)
    (call : List ProductInput → Except String (List ProductResult)) :
    List (List ProductInput) → AppState → List AppState
  | [], _ => []
  | b :: bs, st =>
    match call b with
    | .ok rs =>
      let st' : AppState :=
        { st with
          results := st.results ++ rs
          status :=
            { st.status with
              completed := min (st.status.completed + b.length) st.status.total } }
      st' :: processBatches wrap call bs st'
    | .error e =>
      [{ st with status := { st.status with error := some (wrap e) } }]

/-- `handleProcess`'s `finally` block applied to the state after the loop:
`isProcessing := false` and `isWaitingForNextBatch := false`. -/
def finishRun (st0 : AppState) (trace : List AppState) : AppState :=
  let stEnd := trace.getLastD st0
  { stEnd with
    status := { stEnd.status with isProcessing := false }
    isWaitingForNextBatch := false }

/-- `handleProcess` of the two-engine App: reject an empty parsed input, then
a missing DeepSeek key (which only opens the settings panel); otherwise reset
`status` and `results`, run the batch loop, and apply the `finally` block.
The per-batch adapter dispatch (`processProductsWithDeepSeek` or
`processWithGemini`) is abstracted as `call`. -/
def handleProcess (provider : ApiProvider) (deepSeekKey rawInput : String)
    (call : List ProductInput → Except String (List ProductResult))
    (st : AppState) : AppState :=
  let inputs := parseInput rawInput
  if inputs.length = 0 then st
  else if provider = .deepseek ∧ jsTrimStr deepSeekKey = "" then
    { st with showSettings := true }
  else
    let st0 : AppState :=
      { st with
        status :=
          { total := inputs.length, completed := 0, isProcessing := true
            error := none }
        results := [] }
    finishRun st0
      (processBatches wrapErrGemini call (chunks inputs (batchSize provider)) st0)

/-- `handleProcess` of the DeepSeek-only App: the key check comes first, the
batch size is the constant 5, and the `catch` message differs. -/
def handleProcessDS (apiKey rawInput : String)
    (call : List ProductInput → Except String (List ProductResult))
    (st : AppState) : AppState :=
  if jsTrimStr apiKey = "" then st
  else
    let inputs := parseInput rawInput
    if inputs.length = 0 then st
    else
      let st0 : AppState :=
        { st with
          status :=
            { total := inputs.length, completed := 0, isProcessing := true
              error := none }
          results := [] }
      finishRun st0 (processBatches wrapErrDS call (chunks inputs 5) st0)

/-- Model of `.replace(/"/g, '""')`: double every double-quote character. -/
def escQ : List Char → List Char
  | [] => []
  | c :: cs => if c = '"' then '"' :: '"' :: escQ cs else c :: escQ cs

/-- `.replace(/"/g, '""')` on strings. -/
def escapeQuotes (s : String) : String :=
  ⟨escQ s.data⟩

/-- Wrap a field value in double quotes, as the template literals
`` `"${...}"` `` in `downloadCSV` do. -/
def quoteField (s : String) : String :=
  "\"" ++ s ++ "\""

/-- Model of JS `Array.prototype.join(sep)`. -/
def joinSep (sep : String) : List String → String
  | [] => ""
  | [s] => s
  | s :: rest => s ++ sep ++ joinSep sep rest

/-- One row of `downloadCSV`: all five fields are quoted, but only
`russianName`, `russianDescription` and `backTranslation` have their embedded
quotes doubled — `sku` and `chineseName` are interpolated verbatim. -/
def encodeRow (r : ProductResult) : String :=
  joinSep ","
    [quoteField r.sku, quoteField r.chineseName,
      quoteField (escapeQuotes r.russianName),
      quoteField (escapeQuotes r.russianDescription),
      quoteField (escapeQuotes r.backTranslation)]

/-- The fixed header row of `downloadCSV`. -/
def csvHeader : String :=
  joinSep "," ["SKU", "Original CN", "Russian Name", "Russian Description",
    "CN Translation"]

/-- The full text handed to the `Blob` in `downloadCSV`: the byte-order mark,
the header, a newline, and the rows joined by newlines. -/
def csvContent (rs : List ProductResult) : String :=
  "\uFEFF" ++ csvHeader ++ "\n" ++ joinSep "\n" (rs.map encodeRow)

/-- Standard CSV reading of one quoted field, after its opening quote, as a
one-character-at-a-time automaton: the flag records whether the previous
character was a quote that may close the field; a doubled quote is turned back
into one literal quote, and the field ends at a quote followed by anything
else (or by the end of input). `acc` accumulates the field's value. -/
def parseQuotedA : Bool → List Char → List Char → Option (List Char × List Char)
  | false, [], _ => none
  | false, c :: rest, acc =>
    if c = '"' then parseQuotedA true rest acc
    else parseQuotedA false rest (acc ++ [c])
  | true, [], acc => some (acc, [])
  | true, c :: rest, acc =>
    if c = '"' then parseQuotedA false rest (acc ++ ['"'])
    else some (acc, c :: rest)

/-- Read one quoted CSV field, starting before its content. -/
def parseQuoted (cs acc : List Char) : Option (List Char × List Char) :=
  parseQuotedA false cs acc

/-- Read one quoted CSV field including its opening quote. -/
def parseField : List Char → Option (List Char × List Char)
  | '"' :: rest => parseQuoted rest []
  | _ => none

/-- Consume the comma between two CSV fields. -/
def expectComma : List Char → Option (List Char)
  | ',' :: rest => some rest
  | _ => none

/-- Read one exported row back: five quoted fields separated by commas, in the
column order of `downloadCSV`. -/
def parseRow (cs : List Char) : Option (ProductResult × List Char) := do
  let (f1, r1) ← parseField cs
  let r1b ← expectComma r1
  let (f2, r2) ← parseField r1b
  let r2b ← expectComma r2
  let (f3, r3) ← parseField r2b
  let r3b ← expectComma r3
  let (f4, r4) ← parseField r3b
  let r4b ← expectComma r4
  let (f5, r5) ← parseField r4b
  pure ({ sku := ⟨f1⟩, chineseName := ⟨f2⟩, russianName := ⟨f3⟩,
          russianDescription := ⟨f4⟩, backTranslation := ⟨f5⟩ }, r5)

/-- Read the exported rows back: rows separated by newlines, ending at the end
of the text. `fuel` bounds the number of rows (each row consumes at least one
character, so `decodeCSV` passes the input length plus one). -/
def parseRows : Nat → List Char → Option (List ProductResult)
  | 0, _ => none
  | _ + 1, [] => some []
  | fuel + 1, cs =>
    match parseRow cs with
    | some (r, []) => some [r]
    | some (r, '\n' :: rest) => (parseRows fuel rest).map fun l => r :: l
    | _ => none

/-- Parse a `downloadCSV` export back into results: skip everything up to the
first newline (the byte-order mark and the unquoted header row), then read the
quoted rows. -/
def decodeCSV (s : String) : Option (List ProductResult) :=
  match s.data.dropWhile (fun c => c != '\n') with
  | '\n' :: rest => parseRows (rest.length + 1) rest
  | _ => none

example : parseInput "A\tfoo\nB  bar\n\nC" =
    [{ sku := "A", chineseName := "foo" }, { sku := "B", chineseName := "bar" }] := by
  decide

example : parseInput "  A\tfoo" = [{ sku := "A", chineseName := "foo" }] := by decide

example : claimedParseInput "  A\tfoo" = [] := by decide

example : parseInput "B   bar baz\tx" = [{ sku := "B", chineseName := "bar baz" }] := by
  decide

example :
    decodeCSV (csvContent [⟨"S1", "名", "Имя, к\"av\"ычки", "desc", "回"⟩]) =
      some [⟨"S1", "名", "Имя, к\"av\"ычки", "desc", "回"⟩] := by
  decide

example :
    decodeCSV (csvContent [⟨"a\"b", "n", "r", "d", "t"⟩]) = none := by
  decide

lemma quoteField_data (s : String) :
    (quoteField s).data = '"' :: (s.data ++ ['"']) := by
  simp [quoteField, String.data_append]

lemma parseQuoted_closing (acc rest : List Char) (hr : rest.head? ≠ some '"') :
    parseQuoted ('"' :: rest) acc = some (acc, rest) := by
  cases rest with
  | nil => simp [parseQuoted, parseQuotedA]
  | cons d rd =>
    have hd : d ≠ '"' := by
      intro h
      exact hr (by simp [h])
    simp [parseQuoted, parseQuotedA, hd]

lemma parseQuoted_plain (cs : List Char) :
    ∀ (acc rest : List Char), '"' ∉ cs → rest.head? ≠ some '"' →
      parseQuoted (cs ++ '"' :: rest) acc = some (acc ++ cs, rest) := by
  induction cs with
  | nil =>
    intro acc rest _ hr
    simpa using parseQuoted_closing acc rest hr
  | cons c cs ih =>
    intro acc rest hq hr
    have hc : c ≠ '"' := fun h => hq (by simp [h])
    have hq' : '"' ∉ cs := fun h => hq (List.mem_cons_of_mem _ h)
    have step : parseQuoted ((c :: cs) ++ '"' :: rest) acc =
        parseQuoted (cs ++ '"' :: rest) (acc ++ [c]) := by
      simp [parseQuoted, parseQuotedA, hc]
    rw [step, ih (acc ++ [c]) rest hq' hr]
    simp

lemma parseQuoted_escQ (cs : List Char) :
    ∀ (acc rest : List Char), rest.head? ≠ some '"' →
      parseQuoted (escQ cs ++ '"' :: rest) acc = some (acc ++ cs, rest) := by
  induction cs with
  | nil =>
    intro acc rest hr
    simpa [escQ] using parseQuoted_closing acc rest hr
  | cons c cs ih =>
    intro acc rest hr
    by_cases hc : c = '"'
    · subst hc
      have step : parseQuoted (escQ ('"' :: cs) ++ '"' :: rest) acc =
          parseQuoted (escQ cs ++ '"' :: rest) (acc ++ ['"']) := by
        simp [escQ, parseQuoted, parseQuotedA]
      rw [step, ih (acc ++ ['"']) rest hr]
      simp
    · have step : parseQuoted (escQ (c :: cs) ++ '"' :: rest) acc =
          parseQuoted (escQ cs ++ '"' :: rest) (acc ++ [c]) := by
        simp [escQ, parseQuoted, parseQuotedA, hc]
      rw [step, ih (acc ++ [c]) rest hr]
      simp

lemma parseField_plain (s : String) (rest : List Char) (hq : '"' ∉ s.data)
    (hr : rest.head? ≠ some '"') :
    parseField ((quoteField s).data ++ rest) = some (s.data, rest) := by
  rw [quoteField_data]
  simp only [List.cons_append, List.append_assoc, List.singleton_append, parseField]
  simpa using parseQuoted_plain s.data [] rest hq hr

lemma parseField_escaped (s : String) (rest : List Char)
    (hr : rest.head? ≠ some '"') :
    parseField ((quoteField (escapeQuotes s)).data ++ rest) = some (s.data, rest) := by
  rw [quoteField_data]
  simp only [escapeQuotes, List.cons_append, List.append_assoc,
    List.singleton_append, parseField]
  simpa using parseQuoted_escQ s.data [] rest hr

lemma encodeRow_data (r : ProductResult) :
    (encodeRow r).data =
      (quoteField r.sku).data ++ ',' ::
        ((quoteField r.chineseName).data ++ ',' ::
          ((quoteField (escapeQuotes r.russianName)).data ++ ',' ::
            ((quoteField (escapeQuotes r.russianDescription)).data ++ ',' ::
              (quoteField (escapeQuotes r.backTranslation)).data))) := by
  simp [encodeRow, joinSep, String.data_append]

lemma parseRow_encodeRow (r : ProductResult) (tail : List Char)
    (h1 : '"' ∉ r.sku.data) (h2 : '"' ∉ r.chineseName.data)
    (ht : tail.head? ≠ some '"') :
    parseRow ((encodeRow r).data ++ tail) = some (r, tail) := by
  rw [encodeRow_data]
  simp only [List.append_assoc, List.cons_append]
  rw [parseRow]
  rw [parseField_plain r.sku _ h1 (by simp)]
  simp only [Option.bind_eq_bind, Option.some_bind, expectComma]
  rw [parseField_plain r.chineseName _ h2 (by simp)]
  simp only [Option.some_bind, expectComma]
  rw [parseField_escaped r.russianName _ (by simp)]
  simp only [Option.some_bind, expectComma]
  rw [parseField_escaped r.russianDescription _ (by simp)]
  simp only [Option.some_bind, expectComma]
  rw [parseField_escaped r.backTranslation _ ht]
  simp

lemma encodeRow_data_shape (r : ProductResult) :
    (encodeRow r).data = '"' ::
      ((r.sku.data ++ ['"']) ++ ',' ::
        ((quoteField r.chineseName).data ++ ',' ::
          ((quoteField (escapeQuotes r.russianName)).data ++ ',' ::
            ((quoteField (escapeQuotes r.russianDescription)).data ++ ',' ::
              (quoteField (escapeQuotes r.backTranslation)).data)))) := by
  rw [encodeRow_data, quoteField_data]
  simp

lemma parseRows_cons (fuel : Nat) (c : Char) (cs : List Char) :
    parseRows (fuel + 1) (c :: cs) =
      match parseRow (c :: cs) with
      | some (r, []) => some [r]
      | some (r, '\n' :: rest) => (parseRows fuel rest).map fun l => r :: l
      | _ => none := rfl

lemma parseRows_joinSep (rs : List ProductResult) :
    ∀ fuel : Nat, rs.length < fuel →
      (∀ r ∈ rs, '"' ∉ r.sku.data ∧ '"' ∉ r.chineseName.data) →
      parseRows fuel (joinSep "\n" (rs.map encodeRow)).data = some rs := by
  induction rs with
  | nil =>
    intro fuel hf _
    cases fuel with
    | zero => omega
    | succ f => simp [joinSep, parseRows]
  | cons r rs ih =>
    intro fuel hf hq
    cases fuel with
    | zero => omega
    | succ f =>
      have hqr := hq r (List.mem_cons_self r rs)
      cases rs with
      | nil =>
        have hp : parseRow ((encodeRow r).data ++ []) = some (r, []) :=
          parseRow_encodeRow r [] hqr.1 hqr.2 (by simp)
        rw [List.append_nil] at hp
        have hsh : (encodeRow r).data = '"' ::
            ((r.sku.data ++ ['"']) ++ ',' ::
              ((quoteField r.chineseName).data ++ ',' ::
                ((quoteField (escapeQuotes r.russianName)).data ++ ',' ::
                  ((quoteField (escapeQuotes r.russianDescription)).data ++ ',' ::
                    (quoteField (escapeQuotes r.backTranslation)).data)))) :=
          encodeRow_data_shape r
        simp only [List.map_cons, List.map_nil, joinSep]
        rw [hsh] at hp ⊢
        rw [parseRows_cons, hp]
      | cons r2 rs2 =>
        have hrest : '"' ∉ r.sku.data ∧ '"' ∉ r.chineseName.data := hqr
        have hjoin : joinSep "\n" ((r :: r2 :: rs2).map encodeRow) =
            encodeRow r ++ "\n" ++ joinSep "\n" ((r2 :: rs2).map encodeRow) := by
          simp [joinSep]
        rw [hjoin]
        have hdata : (encodeRow r ++ "\n" ++ joinSep "\n" ((r2 :: rs2).map encodeRow)).data =
            (encodeRow r).data ++ '\n' :: (joinSep "\n" ((r2 :: rs2).map encodeRow)).data := by
          simp [String.data_append]
        rw [hdata]
        have hp : parseRow ((encodeRow r).data ++
            '\n' :: (joinSep "\n" ((r2 :: rs2).map encodeRow)).data) =
            some (r, '\n' :: (joinSep "\n" ((r2 :: rs2).map encodeRow)).data) :=
          parseRow_encodeRow r _ hrest.1 hrest.2 (by simp)
        have hsh := encodeRow_data_shape r
        rw [hsh] at hp ⊢
        rw [List.cons_append] at hp ⊢
        rw [parseRows_cons, hp]
        have hih := ih f (by simpa using Nat.lt_of_succ_lt_succ hf)
          (fun x hx => hq x (List.mem_cons_of_mem _ hx))
        simp only [List.map_cons] at hih
        simp [hih]

lemma dropWhile_until_newline (l : List Char) :
    ∀ r : List Char, (∀ c ∈ l, c ≠ '\n') →
      List.dropWhile (fun c => c != '\n') (l ++ '\n' :: r) = '\n' :: r := by
  induction l with
  | nil => intro r _; simp [List.dropWhile]
  | cons c l ih =>
    intro r h
    have hc : c ≠ '\n' := h c (List.mem_cons_self c l)
    have hb : (c != '\n') = true := by simpa using hc
    simp only [List.cons_append, List.dropWhile, hb]
    exact ih r fun d hd => h d (List.mem_cons_of_mem _ hd)

lemma length_le_joinSep_rows (rs : List ProductResult) :
    rs.length ≤ (joinSep "\n" (rs.map encodeRow)).data.length := by
  induction rs with
  | nil => simp [joinSep]
  | cons r rs ih =>
    cases rs with
    | nil =>
      have : (encodeRow r).data.length ≥ 1 := by
        rw [encodeRow_data_shape]
        simp
      simpa [joinSep] using this
    | cons r2 rs2 =>
      have hjoin : joinSep "\n" ((r :: r2 :: rs2).map encodeRow) =
          encodeRow r ++ "\n" ++ joinSep "\n" ((r2 :: rs2).map encodeRow) := by
        simp [joinSep]
      rw [hjoin]
      simp only [String.data_append, List.length_append]
      have h2 : (r2 :: rs2).length ≤
          (joinSep "\n" ((r2 :: rs2).map encodeRow)).data.length := ih
      simp only [List.length_cons] at h2 ⊢
      omega

lemma csvHeader_no_newline : ∀ c ∈ ('\uFEFF' :: csvHeader.data), c ≠ '\n' := by
  decide

lemma chunksAux_nil (K fuel : Nat) : chunksAux (α := α) K fuel [] = [] := by
  cases fuel <;> simp [chunksAux]

lemma chunksAux_join (K : Nat) :
    ∀ (fuel : Nat) (l : List α), l.length ≤ fuel → (chunksAux K fuel l).flatten = l := by
  intro fuel
  induction fuel with
  | zero =>
    intro l h
    cases l with
    | nil => simp [chunksAux]
    | cons a t => simp at h
  | succ f ih =>
    intro l h
    cases l with
    | nil => simp [chunksAux]
    | cons a t =>
      simp only [chunksAux, List.flatten_cons]
      rw [ih (t.drop (K - 1)) (by simp only [List.length_drop]; simp at h; omega)]
      simp [List.take_append_drop]

lemma chunks_join (l : List α) (K : Nat) : (chunks l K).flatten = l :=
  chunksAux_join K l.length l le_rfl

lemma chunksAux_length (K : Nat) (hK : 0 < K) :
    ∀ (fuel : Nat) (l : List α), l.length ≤ fuel →
      (chunksAux K fuel l).length = (l.length + K - 1) / K := by
  intro fuel
  induction fuel with
  | zero =>
    intro l h
    cases l with
    | nil =>
      simp only [chunksAux, List.length_nil]
      rw [Nat.div_eq_of_lt (by omega)]
    | cons a t => simp at h
  | succ f ih =>
    intro l h
    cases l with
    | nil =>
      simp only [chunksAux, List.length_nil]
      rw [Nat.div_eq_of_lt (by omega)]
    | cons a t =>
      simp only [chunksAux, List.length_cons]
      rw [ih (t.drop (K - 1)) (by simp only [List.length_drop]; simp at h; omega)]
      simp only [List.length_drop]
      have hKK : t.length + 1 + K - 1 = t.length + K := by omega
      rw [hKK]
      by_cases hm : K - 1 ≤ t.length
      · have h1 : t.length - (K - 1) + K - 1 = t.length := by omega
        rw [h1]
        rw [Nat.add_div_right _ hK]
      · have h1 : t.length - (K - 1) + K - 1 = K - 1 := by omega
        rw [h1]
        rw [Nat.div_eq_of_lt (by omega)]
        have h2 : (t.length + K) / K = t.length / K + 1 := Nat.add_div_right _ hK
        rw [h2, Nat.div_eq_of_lt (by omega)]

lemma chunksAux_sizes (K : Nat) (hK : 0 < K) :
    ∀ (fuel : Nat) (l : List α), l.length ≤ fuel →
      ∀ b ∈ chunksAux K fuel l, 0 < b.length ∧ b.length ≤ K := by
  intro fuel
  induction fuel with
  | zero =>
    intro l h b hb
    cases l with
    | nil => simp [chunksAux] at hb
    | cons a t => simp at h
  | succ f ih =>
    intro l h b hb
    cases l with
    | nil => simp [chunksAux] at hb
    | cons a t =>
      simp only [chunksAux, List.mem_cons] at hb
      rcases hb with hb | hb
      · subst hb
        simp only [List.length_cons, List.length_take]
        omega
      · exact ih (t.drop (K - 1))
          (by simp only [List.length_drop]; simp at h; omega) b hb

lemma chunksAux_dropLast (K : Nat) (hK : 0 < K) :
    ∀ (fuel : Nat) (l : List α), l.length ≤ fuel →
      ∀ b ∈ (chunksAux K fuel l).dropLast, b.length = K := by
  intro fuel
  induction fuel with
  | zero =>
    intro l h b hb
    cases l with
    | nil => simp [chunksAux] at hb
    | cons a t => simp at h
  | succ f ih =>
    intro l h b hb
    cases l with
    | nil => simp [chunksAux] at hb
    | cons a t =>
      simp only [chunksAux] at hb
      rcases hrest : chunksAux K f (t.drop (K - 1)) with _ | ⟨c, cs⟩
      · rw [hrest] at hb
        simp at hb
      · rw [hrest] at hb
        rw [List.dropLast_cons₂, List.mem_cons] at hb
        have hdrop_ne : t.drop (K - 1) ≠ [] := by
          intro hnil
          rw [hnil, chunksAux_nil] at hrest
          exact List.noConfusion hrest
        have htlen : K - 1 ≤ t.length := by
          by_contra hlt
          exact hdrop_ne (List.drop_eq_nil_of_le (by omega))
        rcases hb with hb | hb
        · subst hb
          simp only [List.length_cons, List.length_take]
          omega
        · have := ih (t.drop (K - 1))
            (by simp only [List.length_drop]; simp at h; omega) b
          rw [hrest] at this
          exact this hb

lemma processBatches_total (wrap : String → String)
    (call : List ProductInput → Except String (List ProductResult)) :
    ∀ (bs : List (List ProductInput)) (st : AppState),
      ∀ s ∈ processBatches wrap call bs st, s.status.total = st.status.total := by
  intro bs
  induction bs with
  | nil => intro st s hs; simp [processBatches] at hs
  | cons b bs ih =>
    intro st s hs
    rcases hcall : call b with e | rs
    · rw [processBatches, hcall] at hs
      simp only [List.mem_singleton] at hs
      subst hs
      rfl
    · rw [processBatches, hcall] at hs
      simp only [List.mem_cons] at hs
      rcases hs with hs | hs
      · subst hs; rfl
      · exact (ih _ s hs).trans rfl

lemma processBatches_chain (wrap : String → String)
    (call : List ProductInput → Except String (List ProductResult)) :
    ∀ (bs : List (List ProductInput)) (st : AppState),
      st.status.completed ≤ st.status.total →
      List.Chain (fun a b => a.status.completed ≤ b.status.completed) st
        (processBatches wrap call bs st) := by
  intro bs
  induction bs with
  | nil => intro st _; simp [processBatches]
  | cons b bs ih =>
    intro st hle
    rcases hcall : call b with e | rs
    · rw [processBatches, hcall]
      exact List.Chain.cons le_rfl List.Chain.nil
    · rw [processBatches, hcall]
      refine List.Chain.cons ?_ (ih _ ?_)
      · exact le_min (Nat.le_add_right _ _) hle
      · exact min_le_right _ _

lemma processBatches_le_total (wrap : String → String)
    (call : List ProductInput → Except String (List ProductResult)) :
    ∀ (bs : List (List ProductInput)) (st : AppState),
      st.status.completed ≤ st.status.total →
      ∀ s ∈ processBatches wrap call bs st,
        s.status.completed ≤ s.status.total := by
  intro bs
  induction bs with
  | nil => intro st _ s hs; simp [processBatches] at hs
  | cons b bs ih =>
    intro st hle s hs
    rcases hcall : call b with e | rs
    · rw [processBatches, hcall] at hs
      simp only [List.mem_singleton] at hs
      subst hs
      exact hle
    · rw [processBatches, hcall] at hs
      simp only [List.mem_cons] at hs
      rcases hs with hs | hs
      · subst hs
        exact min_le_right _ _
      · exact ih _ (min_le_right _ _) s hs

lemma processBatches_failure (wrap : String → String)
    (call : List ProductInput → Except String (List ProductResult)) :
    ∀ (j : Nat) (bs : List (List ProductInput)) (st : AppState) (hj : j < bs.length),
      (∀ i (hi : i < j), ∃ rs, call (bs.get ⟨i, hi.trans hj⟩) = .ok rs) →
      (∃ e, call (bs.get ⟨j, hj⟩) = .error e) →
      st.status.completed + ((bs.take j).map List.length).sum ≤ st.status.total →
      ((processBatches wrap call bs st).getLastD st).status.completed =
          st.status.completed + ((bs.take j).map List.length).sum ∧
        (processBatches wrap call bs st).length = j + 1 := by
  intro j
  induction j with
  | zero =>
    intro bs st hj _ herr _
    cases bs with
    | nil => simp at hj
    | cons b bs =>
      obtain ⟨e, he⟩ := herr
      simp only [List.get] at he
      rw [processBatches, he]
      simp
  | succ j ih =>
    intro bs st hj hok herr hsum
    cases bs with
    | nil => simp at hj
    | cons b bs =>
      obtain ⟨rs, hb⟩ := hok 0 (Nat.succ_pos j)
      simp only [List.get] at hb
      rw [processBatches, hb]
      have hj' : j < bs.length := Nat.lt_of_succ_lt_succ hj
      simp only [List.take_succ_cons, List.map_cons, List.sum_cons] at hsum ⊢
      have hcb : st.status.completed + b.length ≤ st.status.total := by omega
      have hmin : min (st.status.completed + b.length) st.status.total =
          st.status.completed + b.length := min_eq_left hcb
      have hih := ih bs
        { st with
          results := st.results ++ rs
          status :=
            { st.status with
              completed := min (st.status.completed + b.length) st.status.total } }
        hj'
        (fun i hi => by
          have := hok (i + 1) (Nat.succ_lt_succ hi)
          simpa [List.get] using this)
        (by simpa [List.get] using herr)
        (by simp only [hmin]; omega)
      rw [List.getLastD_cons]
      refine ⟨?_, ?_⟩
      · rw [hih.1]
        simp only [hmin]
        omega
      · simp only [List.length_cons, hih.2]

lemma makeRequestI_ok (oracle : Nat → DSOutcome α) (attempt : Nat) (v : α)
    (h : oracle attempt = .ok v) : makeRequestI oracle attempt = (.ok v, 1) := by
  rw [makeRequestI, h]

lemma makeRequestI_429_retry (oracle : Nat → DSOutcome α) (attempt : Nat) (m : String)
    (h : oracle attempt = .httpErr 429 m) (ha : attempt < 3) :
    makeRequestI oracle attempt =
      ((makeRequestI oracle (attempt + 1)).1,
        (makeRequestI oracle (attempt + 1)).2 + 1) := by
  rw [makeRequestI, h]
  simp [ha]

lemma makeRequestI_http_final (oracle : Nat → DSOutcome α) (attempt : Nat)
    (status : Nat) (m : String) (h : oracle attempt = .httpErr status m)
    (h429 : ¬(status = 429 ∧ attempt < 3)) (h2 : ¬attempt < 2) :
    makeRequestI oracle attempt = (.error m, 1) := by
  rw [makeRequestI, h]
  simp [h429, h2]

lemma makeRequestI_catch_retry (oracle : Nat → DSOutcome α) (attempt : Nat)
    (m : String) (h : oracle attempt = .parseFail m) (h2 : attempt < 2) :
    makeRequestI oracle attempt =
      ((makeRequestI oracle (attempt + 1)).1,
        (makeRequestI oracle (attempt + 1)).2 + 1) := by
  rw [makeRequestI, h]
  simp [h2]

lemma makeRequestI_catch_final (oracle : Nat → DSOutcome α) (attempt : Nat)
    (m : String) (h : oracle attempt = .parseFail m) (h2 : ¬attempt < 2) :
    makeRequestI oracle attempt = (.error m, 1) := by
  rw [makeRequestI, h]
  simp [h2]

lemma decodeCSV_csvContent (rs : List ProductResult)
    (hq : ∀ r ∈ rs, '"' ∉ r.sku.data ∧ '"' ∉ r.chineseName.data) :
    decodeCSV (csvContent rs) = some rs := by
  have hdata : (csvContent rs).data =
      ('\uFEFF' :: csvHeader.data) ++ '\n' ::
        (joinSep "\n" (rs.map encodeRow)).data := by
    simp [csvContent, String.data_append]
  rw [decodeCSV, hdata, dropWhile_until_newline _ _ csvHeader_no_newline]
  exact parseRows_joinSep rs _ (Nat.lt_succ_of_le (length_le_joinSep_rows rs)) hq

/-- C1 (amended): a Gemini call whose every attempt reports a rate-limit error
is attempted exactly 3 times and then fails with the last error; a DeepSeek
call whose every attempt reports HTTP 429 is attempted exactly 4 times (its
rate-limit branch retries while the attempt counter is below 3) and then
fails; and for either adapter a call that succeeds on the final allowed
attempt returns its parsed result with no error, having used all allowed
attempts. -/
theorem c1_retry_ceiling
    (oG1 oG2 : Nat → Except GenError (List ResponseEntry))
    (oD1 oD2 : Nat → DSOutcome RawResult)
    (v : List ResponseEntry) (w : RawResult)
    (hG1 : ∀ i, ∃ e, oG1 i = .error e ∧ isRateLimitErr e = true)
    (hG2a : ∀ i, i < 2 → ∃ e, oG2 i = .error e ∧ isRateLimitErr e = true)
    (hG2b : oG2 2 = .ok v)
    (hD1 : ∀ i, ∃ m, oD1 i = .httpErr 429 m)
    (hD2a : ∀ i, i < 3 → ∃ m, oD2 i = .httpErr 429 m)
    (hD2b : oD2 3 = .ok w) :
    (generateAttempts oG1 3 = 3 ∧ ∃ e, generateWithRetry oG1 3 = .error e) ∧
    (generateWithRetry oG2 3 = .ok v ∧ generateAttempts oG2 3 = 3) ∧
    (makeRequestAttempts oD1 0 = 4 ∧ ∃ m, makeRequest oD1 0 = .error m) ∧
    (makeRequest oD2 0 = .ok w ∧ makeRequestAttempts oD2 0 = 4) := by
  obtain ⟨e0, he0, hr0⟩ := hG1 0
  obtain ⟨e1, he1, hr1⟩ := hG1 1
  obtain ⟨e2, he2, hr2⟩ := hG1 2
  obtain ⟨f0, hf0, hs0⟩ := hG2a 0 (by omega)
  obtain ⟨f1, hf1, hs1⟩ := hG2a 1 (by omega)
  obtain ⟨m0, hm0⟩ := hD1 0
  obtain ⟨m1, hm1⟩ := hD1 1
  obtain ⟨m2, hm2⟩ := hD1 2
  obtain ⟨m3, hm3⟩ := hD1 3
  obtain ⟨n0, hn0⟩ := hD2a 0 (by omega)
  obtain ⟨n1, hn1⟩ := hD2a 1 (by omega)
  obtain ⟨n2, hn2⟩ := hD2a 2 (by omega)
  refine ⟨⟨?_, ⟨e2, ?_⟩⟩, ⟨?_, ?_⟩, ⟨?_, ⟨m3, ?_⟩⟩, ⟨?_, ?_⟩⟩
  · simp [generateAttempts, genRetryAuxI, he0, he1, he2, hr0, hr1, hr2]
  · simp [generateWithRetry, genRetryAuxI, he0, he1, he2, hr0, hr1, hr2]
  · simp [generateWithRetry, genRetryAuxI, hf0, hf1, hG2b, hs0, hs1]
  · simp [generateAttempts, genRetryAuxI, hf0, hf1, hG2b, hs0, hs1]
  · have s3 : makeRequestI oD1 3 = (.error m3, 1) :=
      makeRequestI_http_final oD1 3 429 m3 hm3 (by omega) (by omega)
    have s2 := makeRequestI_429_retry oD1 2 m2 hm2 (by omega)
    have s1 := makeRequestI_429_retry oD1 1 m1 hm1 (by omega)
    have s0 := makeRequestI_429_retry oD1 0 m0 hm0 (by omega)
    rw [s3] at s2
    rw [s2] at s1
    rw [s1] at s0
    simp [makeRequestAttempts, s0]
  · have s3 : makeRequestI oD1 3 = (.error m3, 1) :=
      makeRequestI_http_final oD1 3 429 m3 hm3 (by omega) (by omega)
    have s2 := makeRequestI_429_retry oD1 2 m2 hm2 (by omega)
    have s1 := makeRequestI_429_retry oD1 1 m1 hm1 (by omega)
    have s0 := makeRequestI_429_retry oD1 0 m0 hm0 (by omega)
    rw [s3] at s2
    rw [s2] at s1
    rw [s1] at s0
    simp [makeRequest, s0]
  · have s3 : makeRequestI oD2 3 = (.ok w, 1) := makeRequestI_ok oD2 3 w hD2b
    have s2 := makeRequestI_429_retry oD2 2 n2 hn2 (by omega)
    have s1 := makeRequestI_429_retry oD2 1 n1 hn1 (by omega)
    have s0 := makeRequestI_429_retry oD2 0 n0 hn0 (by omega)
    rw [s3] at s2
    rw [s2] at s1
    rw [s1] at s0
    simp [makeRequest, s0]
  · have s3 : makeRequestI oD2 3 = (.ok w, 1) := makeRequestI_ok oD2 3 w hD2b
    have s2 := makeRequestI_429_retry oD2 2 n2 hn2 (by omega)
    have s1 := makeRequestI_429_retry oD2 1 n1 hn1 (by omega)
    have s0 := makeRequestI_429_retry oD2 0 n0 hn0 (by omega)
    rw [s3] at s2
    rw [s2] at s1
    rw [s1] at s0
    simp [makeRequestAttempts, s0]

/-- C1 counterexample: the claim says the retry ceilings are 3 attempts in one
adapter variant and 2 in the other, but a DeepSeek call whose every attempt
reports HTTP 429 is attempted 4 times — neither 2 nor 3. -/
theorem c1_counterexample :
    makeRequestAttempts (fun _ => DSOutcome.httpErr 429 "Too Many Requests" :
        Nat → DSOutcome RawResult) 0 = 4 ∧
      makeRequestAttempts (fun _ => DSOutcome.httpErr 429 "Too Many Requests" :
        Nat → DSOutcome RawResult) 0 ≠ 2 ∧
      makeRequestAttempts (fun _ => DSOutcome.httpErr 429 "Too Many Requests" :
        Nat → DSOutcome RawResult) 0 ≠ 3 := by
  have h : makeRequestAttempts (fun _ => DSOutcome.httpErr 429 "Too Many Requests" :
      Nat → DSOutcome RawResult) 0 = 4 := by
    simp [makeRequestAttempts, makeRequestI]
  exact ⟨h, by rw [h]; decide, by rw [h]; decide⟩

/-- Witness for C1: the amended theorem instantiated at concrete oracles. -/
theorem c1_retry_ceiling_witness :
    (∀ i, ∃ e, (fun _ : Nat => (Except.error { message := "429", status := none } :
        Except GenError (List ResponseEntry))) i = .error e ∧ isRateLimitErr e = true) ∧
    (∀ i, i < 2 → ∃ e, (fun i : Nat => if i < 2 then
        (Except.error { message := "429", status := none } :
          Except GenError (List ResponseEntry)) else .ok []) i = .error e ∧
        isRateLimitErr e = true) ∧
    ((fun i : Nat => if i < 2 then
        (Except.error { message := "429", status := none } :
          Except GenError (List ResponseEntry)) else .ok []) 2 = .ok []) ∧
    (∀ i, ∃ m, (fun _ : Nat => (DSOutcome.httpErr 429 "r" : DSOutcome RawResult)) i =
        .httpErr 429 m) ∧
    (∀ i, i < 3 → ∃ m, (fun i : Nat => if i < 3 then
        (DSOutcome.httpErr 429 "r" : DSOutcome RawResult) else .ok (.arr [])) i =
        .httpErr 429 m) ∧
    ((fun i : Nat => if i < 3 then (DSOutcome.httpErr 429 "r" : DSOutcome RawResult)
        else .ok (.arr [])) 3 = .ok (.arr [])) ∧
    ((generateAttempts (fun _ : Nat => .error { message := "429", status := none }) 3 = 3 ∧
        ∃ e, generateWithRetry (fun _ : Nat =>
          .error { message := "429", status := none }) 3 = .error e) ∧
      (generateWithRetry (fun i : Nat => if i < 2 then
            .error { message := "429", status := none } else .ok []) 3 = .ok [] ∧
        generateAttempts (fun i : Nat => if i < 2 then
          .error { message := "429", status := none } else .ok []) 3 = 3) ∧
      (makeRequestAttempts (fun _ : Nat => (DSOutcome.httpErr 429 "r" :
            DSOutcome RawResult)) 0 = 4 ∧
        ∃ m, makeRequest (fun _ : Nat => (DSOutcome.httpErr 429 "r" :
          DSOutcome RawResult)) 0 = .error m) ∧
      (makeRequest (fun i : Nat => if i < 3 then (DSOutcome.httpErr 429 "r" :
            DSOutcome RawResult) else .ok (.arr [])) 0 = .ok (.arr []) ∧
        makeRequestAttempts (fun i : Nat => if i < 3 then (DSOutcome.httpErr 429 "r" :
          DSOutcome RawResult) else .ok (.arr [])) 0 = 4)) := by
  have h1 : ∀ i, ∃ e, (fun _ : Nat => (Except.error { message := "429", status := none } :
      Except GenError (List ResponseEntry))) i = .error e ∧ isRateLimitErr e = true :=
    fun _ => ⟨{ message := "429", status := none }, rfl, by decide⟩
  have h2 : ∀ i, i < 2 → ∃ e, (fun i : Nat => if i < 2 then
      (Except.error { message := "429", status := none } :
        Except GenError (List ResponseEntry)) else .ok []) i = .error e ∧
      isRateLimitErr e = true :=
    fun i hi => ⟨{ message := "429", status := none }, by simp [hi], by decide⟩
  have h3 : (fun i : Nat => if i < 2 then
      (Except.error { message := "429", status := none } :
        Except GenError (List ResponseEntry)) else .ok []) 2 = .ok [] := by simp
  have h4 : ∀ i, ∃ m, (fun _ : Nat => (DSOutcome.httpErr 429 "r" :
      DSOutcome RawResult)) i = .httpErr 429 m := fun _ => ⟨"r", rfl⟩
  have h5 : ∀ i, i < 3 → ∃ m, (fun i : Nat => if i < 3 then
      (DSOutcome.httpErr 429 "r" : DSOutcome RawResult) else .ok (.arr [])) i =
      .httpErr 429 m := fun i hi => ⟨"r", by simp [hi]⟩
  have h6 : (fun i : Nat => if i < 3 then (DSOutcome.httpErr 429 "r" :
      DSOutcome RawResult) else .ok (.arr [])) 3 = .ok (.arr []) := by simp
  exact ⟨h1, h2, h3, h4, h5, h6, c1_retry_ceiling _ _ _ _ _ _ h1 h2 h3 h4 h5 h6⟩

/-- C5 (amended): on a failure not classified as rate-limit, the Gemini
adapter propagates the error immediately with no further attempts, while the
DeepSeek adapter retries with a flat delay while the attempt counter is below
2 — so a call whose every attempt fails generically is attempted 3 times
(two retries, not one) before the last error is propagated. -/
theorem c5_non_rate_limit_failure
    (oG : Nat → Except GenError (List ResponseEntry))
    (oD : Nat → DSOutcome RawResult) (e : GenError)
    (hG : oG 0 = .error e) (hGrl : isRateLimitErr e = false)
    (hD : ∀ i, ∃ m, oD i = .parseFail m) :
    (generateWithRetry oG 3 = .error e ∧ generateAttempts oG 3 = 1) ∧
    (makeRequestAttempts oD 0 = 3 ∧
      ∃ m, makeRequest oD 0 = .error m ∧ oD 2 = .parseFail m) := by
  obtain ⟨m0, hm0⟩ := hD 0
  obtain ⟨m1, hm1⟩ := hD 1
  obtain ⟨m2, hm2⟩ := hD 2
  have s2 : makeRequestI oD 2 = (.error m2, 1) :=
    makeRequestI_catch_final oD 2 m2 hm2 (by omega)
  have s1 := makeRequestI_catch_retry oD 1 m1 hm1 (by omega)
  have s0 := makeRequestI_catch_retry oD 0 m0 hm0 (by omega)
  rw [s2] at s1
  rw [s1] at s0
  refine ⟨⟨?_, ?_⟩, ?_, ⟨m2, ?_, hm2⟩⟩
  · simp [generateWithRetry, genRetryAuxI, hG, hGrl]
  · simp [generateAttempts, genRetryAuxI, hG, hGrl]
  · simp [makeRequestAttempts, s0]
  · simp [makeRequest, s0]

/-- C5 counterexample: the claim says the DeepSeek adapter retries exactly
once more on a non-rate-limit failure, which would make a call whose every
attempt fails generically use 2 attempts in total; the code uses 3. -/
theorem c5_counterexample :
    makeRequestAttempts (fun _ => DSOutcome.parseFail "bad json" :
        Nat → DSOutcome RawResult) 0 = 3 ∧
      makeRequestAttempts (fun _ => DSOutcome.parseFail "bad json" :
        Nat → DSOutcome RawResult) 0 ≠ 2 := by
  have h : makeRequestAttempts (fun _ => DSOutcome.parseFail "bad json" :
      Nat → DSOutcome RawResult) 0 = 3 := by
    simp [makeRequestAttempts, makeRequestI]
  exact ⟨h, by rw [h]; decide⟩

/-- Witness for C5: the amended theorem instantiated at concrete oracles. -/
theorem c5_non_rate_limit_failure_witness :
    ((fun _ : Nat => (Except.error { message := "boom", status := some 500 } :
        Except GenError (List ResponseEntry))) 0 =
      .error { message := "boom", status := some 500 }) ∧
    isRateLimitErr { message := "boom", status := some 500 } = false ∧
    (∀ i, ∃ m, (fun _ : Nat => (DSOutcome.parseFail "bad" : DSOutcome RawResult)) i =
      .parseFail m) ∧
    ((generateWithRetry (fun _ : Nat =>
          .error { message := "boom", status := some 500 }) 3 =
        .error { message := "boom", status := some 500 } ∧
      generateAttempts (fun _ : Nat =>
        .error { message := "boom", status := some 500 }) 3 = 1) ∧
      (makeRequestAttempts (fun _ : Nat => (DSOutcome.parseFail "bad" :
          DSOutcome RawResult)) 0 = 3 ∧
        ∃ m, makeRequest (fun _ : Nat => (DSOutcome.parseFail "bad" :
            DSOutcome RawResult)) 0 = .error m ∧
          (fun _ : Nat => (DSOutcome.parseFail "bad" : DSOutcome RawResult)) 2 =
            .parseFail m)) := by
  have h1 : (fun _ : Nat => (Except.error { message := "boom", status := some 500 } :
      Except GenError (List ResponseEntry))) 0 =
      .error { message := "boom", status := some 500 } := rfl
  have h2 : isRateLimitErr { message := "boom", status := some 500 } = false := by
    decide
  have h3 : ∀ i, ∃ m, (fun _ : Nat => (DSOutcome.parseFail "bad" :
      DSOutcome RawResult)) i = .parseFail m := fun _ => ⟨"bad", rfl⟩
  exact ⟨h1, h2, h3, c5_non_rate_limit_failure _ _ _ h1 h2 h3⟩

/-- C6 (amended): the parser first trims the whole raw text, then behaves
exactly as the claim describes (split on newlines, split each line on a tab or
a run of two-or-more spaces, trim the first two fields, drop lines with an
empty field, ignore extras); in particular the claim's example yields exactly
the records (A, foo) and (B, bar). -/
theorem c6_parse_behaviour (text : String) :
    parseInput text = claimedParseInput (jsTrimStr text) ∧
    parseInput "A\tfoo\nB  bar\n\nC" =
      [{ sku := "A", chineseName := "foo" }, { sku := "B", chineseName := "bar" }] := by
  constructor
  · rfl
  · decide

/-- C6 counterexample: the claim's description (no whole-text trim) drops an
input whose first line starts with two spaces, but the code keeps it. -/
theorem c6_counterexample :
    parseInput "  A\tfoo" = [{ sku := "A", chineseName := "foo" }] ∧
    claimedParseInput "  A\tfoo" = [] := by
  decide

/-- C8: for every input list and either provider, the scheduler's slicing
produces exactly ceil(N/K) batches (K = 4 for Gemini, 5 for DeepSeek) whose
concatenation in order is the input, every batch except possibly the last has
exactly K elements, and every batch is non-empty with at most K elements. -/
theorem c8_batch_slicing (p : ApiProvider) (inputs : List ProductInput) :
    (chunks inputs (batchSize p)).length =
      (inputs.length + batchSize p - 1) / batchSize p ∧
    (chunks inputs (batchSize p)).flatten = inputs ∧
    (∀ b ∈ (chunks inputs (batchSize p)).dropLast, b.length = batchSize p) ∧
    (∀ b ∈ chunks inputs (batchSize p), 0 < b.length ∧ b.length ≤ batchSize p) := by
  have hK : 0 < batchSize p := by cases p <;> decide
  exact ⟨chunksAux_length _ hK _ _ le_rfl, chunks_join _ _,
    chunksAux_dropLast _ hK _ _ le_rfl, chunksAux_sizes _ hK _ _ le_rfl⟩

/-- C4 (amended): encoding a result sequence with the CSV export and parsing
it back reproduces all five fields exactly — including embedded quotes or
commas in the three fields the export escapes — provided `sku` and
`chineseName` (which the export quotes but does not escape) contain no double
quote. -/
theorem c4_csv_round_trip (rs : List ProductResult)
    (hq : ∀ r ∈ rs, '"' ∉ r.sku.data ∧ '"' ∉ r.chineseName.data) :
    decodeCSV (csvContent rs) = some rs :=
  decodeCSV_csvContent rs hq

/-- C4 counterexample: a result whose `sku` contains a double quote is not
reproduced by parsing the export back — the unescaped quote corrupts the row. -/
theorem c4_counterexample :
    decodeCSV (csvContent [⟨"a\"b", "n", "r", "d", "t"⟩]) ≠
      some [⟨"a\"b", "n", "r", "d", "t"⟩] := by
  decide

/-- Witness for C4: the round trip at a concrete sequence whose escaped fields
contain quotes and commas. -/
theorem c4_csv_round_trip_witness :
    (∀ r ∈ [(⟨"S1", "名", "Имя, к\"av\"ычки", "из \"двух\" строк", "回"⟩ :
        ProductResult)], '"' ∉ r.sku.data ∧ '"' ∉ r.chineseName.data) ∧
    decodeCSV (csvContent [⟨"S1", "名", "Имя, к\"av\"ычки", "из \"двух\" строк", "回"⟩]) =
      some [⟨"S1", "名", "Имя, к\"av\"ычки", "из \"двух\" строк", "回"⟩] := by
  have h : ∀ r ∈ [(⟨"S1", "名", "Имя, к\"av\"ычки", "из \"двух\" строк", "回"⟩ :
      ProductResult)], '"' ∉ r.sku.data ∧ '"' ∉ r.chineseName.data := by decide
  exact ⟨h, c4_csv_round_trip _ h⟩

/-- C7: a response entry whose `sku` matches no record of the submitted batch
still yields a `ProductResult` whose source-name field is the sentinel
`"未知"`; an entry whose `sku` matches an input with a non-empty name gets
that input's `chineseName`; and on a successful provider call either adapter
returns one reconciled result per response entry with no error. -/
theorem c7_reconciliation_fallback (products : List ProductInput)
    (res : ResponseEntry) :
    ((∀ p ∈ products, p.sku ≠ res.sku) →
      (reconcileEntry products res).chineseName = "未知") ∧
    (∀ p, products.find? (fun q => q.sku == res.sku) = some p →
      p.chineseName ≠ "" →
      (reconcileEntry products res).chineseName = p.chineseName) ∧
    (∀ (oracle : Nat → DSOutcome RawResult) (entries : List ResponseEntry),
      makeRequest oracle 0 = .ok (.arr entries) →
      processProductsWithDeepSeek products oracle =
        .ok (entries.map (reconcileEntry products))) ∧
    (∀ (oracle : Nat → Except GenError (List ResponseEntry))
        (entries : List ResponseEntry),
      generateWithRetry oracle 3 = .ok entries →
      processProductsBatch products oracle =
        .ok (entries.map (reconcileEntry products))) := by
  refine ⟨?_, ?_, ?_, ?_⟩
  · intro h
    have hf : products.find? (fun q => q.sku == res.sku) = none :=
      List.find?_eq_none.mpr fun p hp => by simp [h p hp]
    simp [reconcileEntry, hf, jsOrElse]
  · intro p hp hne
    simp [reconcileEntry, hp, jsOrElse, hne]
  · intro oracle entries h
    simp [processProductsWithDeepSeek, h]
  · intro oracle entries h
    simp [processProductsBatch, h]

/-- Witness for C7: the theorem applied at a one-record batch, once with an
unmatched entry and once with a matched one, and at concrete oracles. -/
theorem c7_reconciliation_fallback_witness :
    ((∀ p ∈ [(⟨"s1", "名"⟩ : ProductInput)], p.sku ≠ "sX") ∧
      (reconcileEntry [⟨"s1", "名"⟩] ⟨"sX", "r", "d", "t"⟩).chineseName = "未知") ∧
    (([(⟨"s1", "名"⟩ : ProductInput)].find?
        (fun q => q.sku == "s1") = some ⟨"s1", "名"⟩) ∧
      ("名" : String) ≠ "" ∧
      (reconcileEntry [⟨"s1", "名"⟩] ⟨"s1", "r", "d", "t"⟩).chineseName = "名") ∧
    (makeRequest (fun _ : Nat => (DSOutcome.ok (RawResult.arr [⟨"s1", "r", "d", "t"⟩]) :
        DSOutcome RawResult)) 0 = .ok (.arr [⟨"s1", "r", "d", "t"⟩]) ∧
      processProductsWithDeepSeek [⟨"s1", "名"⟩]
        (fun _ : Nat => .ok (.arr [⟨"s1", "r", "d", "t"⟩])) =
        .ok ([⟨"s1", "r", "d", "t"⟩].map (reconcileEntry [⟨"s1", "名"⟩]))) ∧
    (generateWithRetry (fun _ : Nat => (Except.ok [⟨"s1", "r", "d", "t"⟩] :
        Except GenError (List ResponseEntry))) 3 = .ok [⟨"s1", "r", "d", "t"⟩] ∧
      processProductsBatch [⟨"s1", "名"⟩]
        (fun _ : Nat => .ok [⟨"s1", "r", "d", "t"⟩]) =
        .ok ([⟨"s1", "r", "d", "t"⟩].map (reconcileEntry [⟨"s1", "名"⟩]))) := by
  have ha : ∀ p ∈ [(⟨"s1", "名"⟩ : ProductInput)], p.sku ≠ "sX" := by decide
  have hb : [(⟨"s1", "名"⟩ : ProductInput)].find?
      (fun q => q.sku == "s1") = some ⟨"s1", "名"⟩ := by decide
  have hc : ("名" : String) ≠ "" := by decide
  have hd : makeRequest (fun _ : Nat =>
      (DSOutcome.ok (RawResult.arr [⟨"s1", "r", "d", "t"⟩]) :
        DSOutcome RawResult)) 0 = .ok (.arr [⟨"s1", "r", "d", "t"⟩]) := by
    simp [makeRequest, makeRequestI]
  have he : generateWithRetry (fun _ : Nat => (Except.ok [⟨"s1", "r", "d", "t"⟩] :
      Except GenError (List ResponseEntry))) 3 = .ok [⟨"s1", "r", "d", "t"⟩] := rfl
  exact ⟨⟨ha, (c7_reconciliation_fallback [⟨"s1", "名"⟩] ⟨"sX", "r", "d", "t"⟩).1 ha⟩,
    ⟨hb, hc, (c7_reconciliation_fallback [⟨"s1", "名"⟩] ⟨"s1", "r", "d", "t"⟩).2.1 _ hb hc⟩,
    ⟨hd, (c7_reconciliation_fallback [⟨"s1", "名"⟩] ⟨"s1", "r", "d", "t"⟩).2.2.1 _ _ hd⟩,
    ⟨he, (c7_reconciliation_fallback [⟨"s1", "名"⟩] ⟨"s1", "r", "d", "t"⟩).2.2.2 _ _ he⟩⟩

/-- C10: a DeepSeek response whose parsed body is valid JSON but not an array
raises no parse error: the body's `products` field is used as the result list
when present, and the batch otherwise yields the empty list. -/
theorem c10_non_array_body (products : List ProductInput)
    (oracle : Nat → DSOutcome RawResult) (ps : Option (List ResponseEntry))
    (h : makeRequest oracle 0 = .ok (.obj ps)) :
    processProductsWithDeepSeek products oracle =
      .ok ((ps.getD []).map (reconcileEntry products)) := by
  simp [processProductsWithDeepSeek, h]

/-- Witness for C10: the theorem at an object body carrying a `products`
field and at one without it. -/
theorem c10_non_array_body_witness :
    (makeRequest (fun _ : Nat => (DSOutcome.ok (RawResult.obj
        (some [⟨"s1", "r", "d", "t"⟩])) : DSOutcome RawResult)) 0 =
      .ok (.obj (some [⟨"s1", "r", "d", "t"⟩])) ∧
      processProductsWithDeepSeek [⟨"s1", "名"⟩]
        (fun _ : Nat => .ok (.obj (some [⟨"s1", "r", "d", "t"⟩]))) =
        .ok (([⟨"s1", "r", "d", "t"⟩] : List ResponseEntry).map
          (reconcileEntry [⟨"s1", "名"⟩]))) ∧
    (makeRequest (fun _ : Nat => (DSOutcome.ok (RawResult.obj none) :
        DSOutcome RawResult)) 0 = .ok (.obj none) ∧
      processProductsWithDeepSeek [⟨"s1", "名"⟩]
        (fun _ : Nat => .ok (.obj none)) = .ok []) := by
  have h1 : makeRequest (fun _ : Nat => (DSOutcome.ok (RawResult.obj
      (some [⟨"s1", "r", "d", "t"⟩])) : DSOutcome RawResult)) 0 =
      .ok (.obj (some [⟨"s1", "r", "d", "t"⟩])) := by
    simp [makeRequest, makeRequestI]
  have h2 : makeRequest (fun _ : Nat => (DSOutcome.ok (RawResult.obj none) :
      DSOutcome RawResult)) 0 = .ok (.obj none) := by
    simp [makeRequest, makeRequestI]
  refine ⟨⟨h1, c10_non_array_body _ _ _ h1⟩, ⟨h2, ?_⟩⟩
  have := c10_non_array_body [(⟨"s1", "名"⟩ : ProductInput)] _ none h2
  simpa using this

/-- C9: a start request with an empty parsed input, or with the DeepSeek
backend selected (or, in the DeepSeek-only variant, always) and a blank key,
is rejected before any run starts: the status record, the accumulated results
and the waiting flag keep their prior values in the two-engine App, and the
DeepSeek-only App's state is returned entirely unchanged. -/
theorem c9_validation_rejection (provider : ApiProvider)
    (key raw key2 raw2 : String)
    (call call2 : List ProductInput → Except String (List ProductResult))
    (st st2 : AppState)
    (h1 : parseInput raw = [] ∨ (provider = .deepseek ∧ jsTrimStr key = ""))
    (h2 : jsTrimStr key2 = "" ∨ parseInput raw2 = []) :
    ((handleProcess provider key raw call st).status = st.status ∧
      (handleProcess provider key raw call st).results = st.results ∧
      (handleProcess provider key raw call st).isWaitingForNextBatch =
        st.isWaitingForNextBatch) ∧
    handleProcessDS key2 raw2 call2 st2 = st2 := by
  constructor
  · rcases h1 with hempty | ⟨hdp, hkey⟩
    · simp [handleProcess, hempty]
    · by_cases hemp : (parseInput raw).length = 0
      · simp [handleProcess, hemp]
      · simp [handleProcess, hemp, hdp, hkey]
  · rcases h2 with hkey | hempty
    · simp [handleProcessDS, hkey]
    · by_cases hk : jsTrimStr key2 = ""
      · simp [handleProcessDS, hk]
      · simp [handleProcessDS, hk, hempty]

/-- Witness for C9: both rejection paths at concrete inputs — a blank raw
input for the two-engine App and a blank key for the DeepSeek-only App. -/
theorem c9_validation_rejection_witness :
    (parseInput " " = [] ∨
      (ApiProvider.gemini = ApiProvider.deepseek ∧ jsTrimStr "k" = "")) ∧
    (jsTrimStr "  " = "" ∨ parseInput "x\ty" = []) ∧
    (((handleProcess .gemini "k" " " (fun _ => .error "never")
          ⟨[], ⟨7, 3, false, some "old"⟩, true, false⟩).status =
        (⟨[], ⟨7, 3, false, some "old"⟩, true, false⟩ : AppState).status ∧
      (handleProcess .gemini "k" " " (fun _ => .error "never")
          ⟨[], ⟨7, 3, false, some "old"⟩, true, false⟩).results =
        (⟨[], ⟨7, 3, false, some "old"⟩, true, false⟩ : AppState).results ∧
      (handleProcess .gemini "k" " " (fun _ => .error "never")
          ⟨[], ⟨7, 3, false, some "old"⟩, true, false⟩).isWaitingForNextBatch =
        (⟨[], ⟨7, 3, false, some "old"⟩, true, false⟩ : AppState).isWaitingForNextBatch) ∧
      handleProcessDS "  " "x\ty" (fun _ => .error "never")
          ⟨[], ⟨7, 3, false, some "old"⟩, true, false⟩ =
        ⟨[], ⟨7, 3, false, some "old"⟩, true, false⟩) := by
  have h1 : parseInput " " = [] ∨
      (ApiProvider.gemini = ApiProvider.deepseek ∧ jsTrimStr "k" = "") :=
    Or.inl (by decide)
  have h2 : jsTrimStr "  " = "" ∨ parseInput "x\ty" = [] := Or.inl (by decide)
  exact ⟨h1, h2, c9_validation_rejection .gemini "k" " " "  " "x\ty" _ _ _ _ h1 h2⟩

lemma wrapErrGemini_ne_empty (m : String) : wrapErrGemini m ≠ "" := by
  intro h
  have hl := congrArg String.length h
  rw [wrapErrGemini] at hl
  simp only [String.length_append] at hl
  have hpos : 0 < ("处理中断: " : String).length := by decide
  simp at hl
  omega

/-- C2: with the input sliced into three batches, when batch 1 succeeds and
batch 2's provider call throws, the run ends with exactly batch 1's records
accumulated, a non-empty error recorded in the status, `isProcessing` false,
the waiting flag false, and only two batch calls attempted (batch 3 is never
called). -/
theorem c2_partial_result_durability (provider : ApiProvider) (key raw : String)
    (call : List ProductInput → Except String (List ProductResult))
    (st : AppState) (b1 b2 b3 : List ProductInput) (r1 : List ProductResult)
    (e : String)
    (hv : provider = .gemini ∨ jsTrimStr key ≠ "")
    (hb : chunks (parseInput raw) (batchSize provider) = [b1, b2, b3])
    (h1 : call b1 = .ok r1) (h2 : call b2 = .error e) :
    (handleProcess provider key raw call st).results = r1 ∧
    (handleProcess provider key raw call st).status.error =
      some (wrapErrGemini e) ∧
    wrapErrGemini e ≠ "" ∧
    (handleProcess provider key raw call st).status.isProcessing = false ∧
    (handleProcess provider key raw call st).isWaitingForNextBatch = false ∧
    (processBatches wrapErrGemini call [b1, b2, b3]
      { st with
        status :=
          { total := (parseInput raw).length, completed := 0
            isProcessing := true, error := none }
        results := [] }).length = 2 := by
  have hne : parseInput raw ≠ [] := by
    intro h0
    rw [h0] at hb
    simp [chunks, chunksAux] at hb
  have hlen : ¬(parseInput raw).length = 0 := by
    simpa [List.length_eq_zero] using hne
  have hguard : ¬(provider = ApiProvider.deepseek ∧ jsTrimStr key = "") := by
    rcases hv with h | h
    · rw [h]
      rintro ⟨h', -⟩
      exact ApiProvider.noConfusion h'
    · rintro ⟨-, hk⟩
      exact h hk
  have t1 : ∀ s : AppState, processBatches wrapErrGemini call [b1, b2, b3] s =
      [{ s with
          results := s.results ++ r1
          status :=
            { s.status with
              completed := min (s.status.completed + b1.length) s.status.total } },
        { s with
          results := s.results ++ r1
          status :=
            { s.status with
              completed := min (s.status.completed + b1.length) s.status.total
              error := some (wrapErrGemini e) } }] := by
    intro s
    simp only [processBatches, h1, h2]
  have hh : handleProcess provider key raw call st =
      finishRun
        { st with
          status :=
            { total := (parseInput raw).length, completed := 0
              isProcessing := true, error := none }
          results := [] }
        (processBatches wrapErrGemini call [b1, b2, b3]
          { st with
            status :=
              { total := (parseInput raw).length, completed := 0
                isProcessing := true, error := none }
            results := [] }) := by
    simp only [handleProcess, if_neg hlen, if_neg hguard, hb]
  refine ⟨?_, ?_, wrapErrGemini_ne_empty e, ?_, ?_, ?_⟩
  · rw [hh, t1]
    simp [finishRun, List.getLastD]
  · rw [hh, t1]
    simp [finishRun, List.getLastD]
  · rw [hh, t1]
    simp [finishRun, List.getLastD]
  · rw [hh, t1]
    simp [finishRun, List.getLastD]
  · rw [t1]
    simp

/-- Witness for C2: a 9-record input sliced by the Gemini batch size 4 into
three batches, with a call that succeeds on batch 1 and throws on batch 2. -/
theorem c2_partial_result_durability_witness :
    (ApiProvider.gemini = ApiProvider.gemini ∨ jsTrimStr "" ≠ "") ∧
    chunks (parseInput "s1\ta\ns2\tb\ns3\tc\ns4\td\ns5\te\ns6\tf\ns7\tg\ns8\th\ns9\ti")
        (batchSize .gemini) =
      [[⟨"s1", "a"⟩, ⟨"s2", "b"⟩, ⟨"s3", "c"⟩, ⟨"s4", "d"⟩],
        [⟨"s5", "e"⟩, ⟨"s6", "f"⟩, ⟨"s7", "g"⟩, ⟨"s8", "h"⟩],
        [⟨"s9", "i"⟩]] ∧
    ((fun b : List ProductInput =>
        if b = [⟨"s1", "a"⟩, ⟨"s2", "b"⟩, ⟨"s3", "c"⟩, ⟨"s4", "d"⟩] then
          Except.ok [(⟨"s1", "a", "r", "d", "t"⟩ : ProductResult)]
        else Except.error "boom")
      [⟨"s1", "a"⟩, ⟨"s2", "b"⟩, ⟨"s3", "c"⟩, ⟨"s4", "d"⟩] =
        .ok [⟨"s1", "a", "r", "d", "t"⟩]) ∧
    ((fun b : List ProductInput =>
        if b = [⟨"s1", "a"⟩, ⟨"s2", "b"⟩, ⟨"s3", "c"⟩, ⟨"s4", "d"⟩] then
          Except.ok [(⟨"s1", "a", "r", "d", "t"⟩ : ProductResult)]
        else Except.error "boom")
      [⟨"s5", "e"⟩, ⟨"s6", "f"⟩, ⟨"s7", "g"⟩, ⟨"s8", "h"⟩] = .error "boom") ∧
    ((handleProcess .gemini ""
        "s1\ta\ns2\tb\ns3\tc\ns4\td\ns5\te\ns6\tf\ns7\tg\ns8\th\ns9\ti"
        (fun b : List ProductInput =>
          if b = [⟨"s1", "a"⟩, ⟨"s2", "b"⟩, ⟨"s3", "c"⟩, ⟨"s4", "d"⟩] then
            Except.ok [(⟨"s1", "a", "r", "d", "t"⟩ : ProductResult)]
          else Except.error "boom")
        ⟨[], ⟨0, 0, false, none⟩, false, false⟩).results =
      [⟨"s1", "a", "r", "d", "t"⟩] ∧
      (handleProcess .gemini ""
          "s1\ta\ns2\tb\ns3\tc\ns4\td\ns5\te\ns6\tf\ns7\tg\ns8\th\ns9\ti"
          (fun b : List ProductInput =>
            if b = [⟨"s1", "a"⟩, ⟨"s2", "b"⟩, ⟨"s3", "c"⟩, ⟨"s4", "d"⟩] then
              Except.ok [(⟨"s1", "a", "r", "d", "t"⟩ : ProductResult)]
            else Except.error "boom")
          ⟨[], ⟨0, 0, false, none⟩, false, false⟩).status.error =
        some (wrapErrGemini "boom") ∧
      wrapErrGemini "boom" ≠ "" ∧
      (handleProcess .gemini ""
          "s1\ta\ns2\tb\ns3\tc\ns4\td\ns5\te\ns6\tf\ns7\tg\ns8\th\ns9\ti"
          (fun b : List ProductInput =>
            if b = [⟨"s1", "a"⟩, ⟨"s2", "b"⟩, ⟨"s3", "c"⟩, ⟨"s4", "d"⟩] then
              Except.ok [(⟨"s1", "a", "r", "d", "t"⟩ : ProductResult)]
            else Except.error "boom")
          ⟨[], ⟨0, 0, false, none⟩, false, false⟩).status.isProcessing = false ∧
      (handleProcess .gemini ""
          "s1\ta\ns2\tb\ns3\tc\ns4\td\ns5\te\ns6\tf\ns7\tg\ns8\th\ns9\ti"
          (fun b : List ProductInput =>
            if b = [⟨"s1", "a"⟩, ⟨"s2", "b"⟩, ⟨"s3", "c"⟩, ⟨"s4", "d"⟩] then
              Except.ok [(⟨"s1", "a", "r", "d", "t"⟩ : ProductResult)]
            else Except.error "boom")
          ⟨[], ⟨0, 0, false, none⟩, false, false⟩).isWaitingForNextBatch = false ∧
      (processBatches wrapErrGemini
        (fun b : List ProductInput =>
          if b = [⟨"s1", "a"⟩, ⟨"s2", "b"⟩, ⟨"s3", "c"⟩, ⟨"s4", "d"⟩] then
            Except.ok [(⟨"s1", "a", "r", "d", "t"⟩ : ProductResult)]
          else Except.error "boom")
        [[⟨"s1", "a"⟩, ⟨"s2", "b"⟩, ⟨"s3", "c"⟩, ⟨"s4", "d"⟩],
          [⟨"s5", "e"⟩, ⟨"s6", "f"⟩, ⟨"s7", "g"⟩, ⟨"s8", "h"⟩],
          [⟨"s9", "i"⟩]]
        { (⟨[], ⟨0, 0, false, none⟩, false, false⟩ : AppState) with
          status :=
            { total := (parseInput
                "s1\ta\ns2\tb\ns3\tc\ns4\td\ns5\te\ns6\tf\ns7\tg\ns8\th\ns9\ti").length
              completed := 0, isProcessing := true, error := none }
          results := [] }).length = 2) := by
  have hv : ApiProvider.gemini = ApiProvider.gemini ∨ jsTrimStr "" ≠ "" :=
    Or.inl rfl
  have hb : chunks (parseInput
      "s1\ta\ns2\tb\ns3\tc\ns4\td\ns5\te\ns6\tf\ns7\tg\ns8\th\ns9\ti")
      (batchSize .gemini) =
      [[⟨"s1", "a"⟩, ⟨"s2", "b"⟩, ⟨"s3", "c"⟩, ⟨"s4", "d"⟩],
        [⟨"s5", "e"⟩, ⟨"s6", "f"⟩, ⟨"s7", "g"⟩, ⟨"s8", "h"⟩],
        [⟨"s9", "i"⟩]] := by decide
  have h1 : (fun b : List ProductInput =>
      if b = [⟨"s1", "a"⟩, ⟨"s2", "b"⟩, ⟨"s3", "c"⟩, ⟨"s4", "d"⟩] then
        Except.ok [(⟨"s1", "a", "r", "d", "t"⟩ : ProductResult)]
      else Except.error "boom")
      [⟨"s1", "a"⟩, ⟨"s2", "b"⟩, ⟨"s3", "c"⟩, ⟨"s4", "d"⟩] =
      .ok [⟨"s1", "a", "r", "d", "t"⟩] := rfl
  have h2 : (fun b : List ProductInput =>
      if b = [⟨"s1", "a"⟩, ⟨"s2", "b"⟩, ⟨"s3", "c"⟩, ⟨"s4", "d"⟩] then
        Except.ok [(⟨"s1", "a", "r", "d", "t"⟩ : ProductResult)]
      else Except.error "boom")
      [⟨"s5", "e"⟩, ⟨"s6", "f"⟩, ⟨"s7", "g"⟩, ⟨"s8", "h"⟩] = .error "boom" := rfl
  exact ⟨hv, hb, h1, h2,
    c2_partial_result_durability .gemini ""
      "s1\ta\ns2\tb\ns3\tc\ns4\td\ns5\te\ns6\tf\ns7\tg\ns8\th\ns9\ti"
      _ _ _ _ _ _ _ hv hb h1 h2⟩

/-- C3: over a run started with `completed = 0` and `total` equal to the
input length, `completed` is non-decreasing along the sequence of states the
loop produces and never exceeds `total` at any state; and if the batches
before index `j` succeed while batch `j`'s call throws, the final state's
`completed` equals the sum of the sizes of the batches that completed before
the failing one, with exactly `j + 1` batch calls attempted. -/
theorem c3_progress_monotonicity (wrap : String → String)
    (call : List ProductInput → Except String (List ProductResult))
    (inputs : List ProductInput) (K : Nat) (st : AppState)
    (h0 : st.status.completed = 0) (hT : st.status.total = inputs.length) :
    List.Chain (fun a b => a.status.completed ≤ b.status.completed) st
      (processBatches wrap call (chunks inputs K) st) ∧
    (∀ s ∈ st :: processBatches wrap call (chunks inputs K) st,
      s.status.completed ≤ s.status.total) ∧
    ∀ j, ∀ hj : j < (chunks inputs K).length,
      (∀ i, ∀ hi : i < j, ∃ rs,
        call ((chunks inputs K).get ⟨i, hi.trans hj⟩) = .ok rs) →
      (∃ e, call ((chunks inputs K).get ⟨j, hj⟩) = .error e) →
      ((processBatches wrap call (chunks inputs K) st).getLastD st).status.completed =
          (((chunks inputs K).take j).map List.length).sum ∧
        (processBatches wrap call (chunks inputs K) st).length = j + 1 := by
  have hle : st.status.completed ≤ st.status.total := by
    rw [h0]
    exact Nat.zero_le _
  refine ⟨processBatches_chain wrap call _ st hle, ?_, ?_⟩
  · intro s hs
    rcases List.mem_cons.mp hs with h | h
    · subst h
      exact hle
    · exact processBatches_le_total wrap call _ st hle s h
  · intro j hj hok herr
    have hall : ((chunks inputs K).map List.length).sum = inputs.length := by
      rw [← List.length_flatten, chunks_join]
    have hsplit :=
      List.sum_take_add_sum_drop ((chunks inputs K).map List.length) j
    rw [← List.map_take] at hsplit
    have hsum : st.status.completed +
        (((chunks inputs K).take j).map List.length).sum ≤ st.status.total := by
      rw [h0, hT]
      omega
    have hmain :=
      processBatches_failure wrap call j (chunks inputs K) st hj hok herr hsum
    rw [h0] at hmain
    simpa using hmain

/-- Witness for C3: a one-record input with batch size 1 whose single batch
call throws, starting from a freshly reset status. -/
theorem c3_progress_monotonicity_witness :
    ((⟨[], ⟨1, 0, true, none⟩, false, false⟩ : AppState).status.completed = 0) ∧
    ((⟨[], ⟨1, 0, true, none⟩, false, false⟩ : AppState).status.total =
      ([(⟨"s", "n"⟩ : ProductInput)]).length) ∧
    (List.Chain (fun a b => a.status.completed ≤ b.status.completed)
      (⟨[], ⟨1, 0, true, none⟩, false, false⟩ : AppState)
      (processBatches (fun m => m) (fun _ => .error "x")
        (chunks [(⟨"s", "n"⟩ : ProductInput)] 1)
        ⟨[], ⟨1, 0, true, none⟩, false, false⟩) ∧
    (∀ s ∈ (⟨[], ⟨1, 0, true, none⟩, false, false⟩ : AppState) ::
        processBatches (fun m => m) (fun _ => .error "x")
          (chunks [(⟨"s", "n"⟩ : ProductInput)] 1)
          ⟨[], ⟨1, 0, true, none⟩, false, false⟩,
      s.status.completed ≤ s.status.total) ∧
    ∀ j, ∀ hj : j < (chunks [(⟨"s", "n"⟩ : ProductInput)] 1).length,
      (∀ i, ∀ hi : i < j, ∃ rs,
        (fun _ => (.error "x" : Except String (List ProductResult)))
          ((chunks [(⟨"s", "n"⟩ : ProductInput)] 1).get ⟨i, hi.trans hj⟩) = .ok rs) →
      (∃ e, (fun _ => (.error "x" : Except String (List ProductResult)))
        ((chunks [(⟨"s", "n"⟩ : ProductInput)] 1).get ⟨j, hj⟩) = .error e) →
      ((processBatches (fun m => m) (fun _ => .error "x")
            (chunks [(⟨"s", "n"⟩ : ProductInput)] 1)
            ⟨[], ⟨1, 0, true, none⟩, false, false⟩).getLastD
          ⟨[], ⟨1, 0, true, none⟩, false, false⟩).status.completed =
          (((chunks [(⟨"s", "n"⟩ : ProductInput)] 1).take j).map List.length).sum ∧
        (processBatches (fun m => m) (fun _ => .error "x")
          (chunks [(⟨"s", "n"⟩ : ProductInput)] 1)
          ⟨[], ⟨1, 0, true, none⟩, false, false⟩).length = j + 1) := by
  have h0 : (⟨[], ⟨1, 0, true, none⟩, false, false⟩ : AppState).status.completed = 0 :=
    rfl
  have hT : (⟨[], ⟨1, 0, true, none⟩, false, false⟩ : AppState).status.total =
      ([(⟨"s", "n"⟩ : ProductInput)]).length := rfl
  exact ⟨h0, hT,
    c3_progress_monotonicity (fun m => m) (fun _ => .error "x")
      [⟨"s", "n"⟩] 1 ⟨[], ⟨1, 0, true, none⟩, false, false⟩ h0 hT⟩
